import Mathlib

/-!
Verification of `vmctl.py`, a local process-lifecycle manager for VM worker
processes.  The development shallowly embeds the registry store, the liveness
prober, the memory-size parser/formatter and the lifecycle controller
(`cmd_start`, `cmd_stop`, `stop_vm`, `get_running_vms`) of the source.

Modelling conventions:
* Python strings are `List Char` (`Str`), restricted to the ASCII behaviour
  the tool exercises.
* Machine-facing effects (the `os.kill` existence probe and signal delivery,
  filesystem existence, spawned pids, clock values) are supplied as explicit
  oracle functions in a world record; a probe result is `ok` (signal
  deliverable), `esrch` (no such process) or `eperm` (permission denied).
* A run-directory is a list of `FileEntry` values, one per `*.json` file.
* All recursion is structural (fuel where the source loops on numbers), so
  every definition evaluates by `decide` / `rfl` on concrete inputs.
-/

set_option autoImplicit false

namespace Vmctl

/-- Python strings, modelled as lists of characters. -/
abbrev Str := List Char

/-- ASCII decimal digit test, `'0' <= c <= '9'` (code points 48..57). -/
def isAsciiDigit (c : Char) : Bool :=
  decide (48 ≤ c.toNat ∧ c.toNat ≤ 57)

/-- ASCII whitespace as stripped by Python `str.strip` / `int`:
space (32) and the control characters tab..carriage-return (9..13). -/
def isPySpace (c : Char) : Bool :=
  decide (c.toNat = 32 ∨ (9 ≤ c.toNat ∧ c.toNat ≤ 13))

/-- ASCII model of Python `str.upper` on one character: lowercase letters
(97..122) map 32 code points down, everything else is unchanged. -/
def upperChar (c : Char) : Char :=
  if 97 ≤ c.toNat ∧ c.toNat ≤ 122 then Char.ofNat (c.toNat - 32) else c

/-- Python `str.strip()`: drop whitespace from both ends. -/
def pyStrip (s : Str) : Str :=
  ((s.dropWhile isPySpace).reverse.dropWhile isPySpace).reverse

/-- Validity of the part of a Python integer literal after its first digit:
digits, with single underscores allowed only between digits
(`int("1_0")` is legal, `int("1__0")` and `int("1_")` are not). -/
def okTail : Str → Bool
  | [] => true
  | [c] => isAsciiDigit c
  | c :: d :: rest =>
    if isAsciiDigit c then okTail (d :: rest)
    else if c = '_' then isAsciiDigit d && okTail (d :: rest)
    else false

/-- Validity of the digit part of a Python integer literal (after an optional
sign): nonempty, starts with a digit, then `okTail`. -/
def okBody : Str → Bool
  | [] => false
  | c :: rest => isAsciiDigit c && okTail rest

/-- Decimal value of the digit characters of a list, skipping non-digits
(underscore separators contribute nothing, as in Python `int`). -/
def digitsVal (s : Str) : Nat :=
  s.foldl (fun a c => if isAsciiDigit c then 10 * a + (c.toNat - 48) else a) 0

/-- Python `int(str)`: strip whitespace, optional single leading sign, then a
digit string with optional underscore separators; anything else raises
`ValueError`, modelled as `none`. -/
def pyInt (s : Str) : Option Int :=
  match pyStrip s with
  | [] => none
  | c :: rest =>
    if c = '+' then (if okBody rest then some (digitsVal rest : Int) else none)
    else if c = '-' then (if okBody rest then some (-(digitsVal rest : Int)) else none)
    else if okBody (c :: rest) then some (digitsVal (c :: rest) : Int) else none

/-- Embedding of `parse_memory` (vmctl.py lines 103-113): strip and uppercase
the input, then a trailing G/M/K multiplies the leading integer by 2^30 /
2^20 / 2^10, and a string with no recognized suffix is passed whole to
`int`.  A failing `int` call is the fatal `ValueError`, modelled as `none`. -/
def parse_memory (s : Str) : Option Int :=
  let t := (pyStrip s).map upperChar
  match t.getLast? with
  | some c =>
    if c = 'G' then (pyInt t.dropLast).map (· * (1024 * 1024 * 1024))
    else if c = 'M' then (pyInt t.dropLast).map (· * (1024 * 1024))
    else if c = 'K' then (pyInt t.dropLast).map (· * 1024)
    else pyInt t
  | none => pyInt t

/-- The decimal digit character for `m < 10` (`m ≥ 9` renders as `'9'`,
matching use sites where `m < 10`). -/
def digitChar : Nat → Char
  | 0 => '0'
  | 1 => '1'
  | 2 => '2'
  | 3 => '3'
  | 4 => '4'
  | 5 => '5'
  | 6 => '6'
  | 7 => '7'
  | 8 => '8'
  | _ => '9'

/-- Fuel-based decimal rendering of a natural number (Python `str(n)`),
most significant digit first.  Any `fuel > n` yields the digits of `n`. -/
def natCharsAux : Nat → Nat → Str
  | 0, _ => []
  | fuel + 1, n =>
    if n < 10 then [digitChar n]
    else natCharsAux fuel (n / 10) ++ [digitChar (n % 10)]

/-- Decimal rendering of a natural number, Python `str(n)`. -/
def natChars (n : Nat) : Str :=
  natCharsAux (n + 1) n

/-- Decimal rendering of an integer, Python `str(n)`. -/
def intChars (n : Int) : Str :=
  if n < 0 then '-' :: natChars n.natAbs else natChars n.toNat

/-- Embedding of `format_memory` (vmctl.py lines 116-123): pick the G / M / K
bucket by size and render the floor-divided quotient with that suffix.
Python `//` on ints floors, hence `Int.fdiv`. -/
def format_memory (b : Int) : Str :=
  if 1024 * 1024 * 1024 ≤ b then intChars (Int.fdiv b (1024 * 1024 * 1024)) ++ ['G']
  else if 1024 * 1024 ≤ b then intChars (Int.fdiv b (1024 * 1024)) ++ ['M']
  else intChars (Int.fdiv b 1024) ++ ['K']

/-- Size bucket of a byte count, following the branch structure of
`format_memory`: 2 for the G range, 1 for the M range, 0 below. -/
def memBucket (b : Int) : Nat :=
  if 1024 * 1024 * 1024 ≤ b then 2
  else if 1024 * 1024 ≤ b then 1
  else 0

/-- Outcome of the `os.kill(pid, sig)` system call for a given pid at a given
moment: deliverable, no such process (`ProcessLookupError`), or permission
denied (`PermissionError`). -/
inductive ProbeRes where
  | ok
  | esrch
  | eperm
  deriving DecidableEq

/-- Embedding of `is_process_running` (vmctl.py lines 94-100): probe with
`os.kill(pid, 0)` and report `True` exactly when the call succeeds.  Both
`ProcessLookupError` and `PermissionError` are subclasses of `OSError`, so
`esrch` and `eperm` alike yield `False`. -/
def is_process_running : ProbeRes → Bool
  | .ok => true
  | _ => false

/-- The launch-configuration snapshot stored in a record
(`vm_config` in `cmd_start`, vmctl.py lines 160-166). -/
structure VMConfig where
  cpu : Int
  memory : Str
  memory_bytes : Int
  disk : Str
  seed : Option Str
  deriving DecidableEq

/-- A parsed registry record (the JSON object written by `save_vm_info`,
vmctl.py lines 52-64).  The `pid` field is `info.get("pid")`: absent or
`null` is `none`; records read back from disk may lack the config. -/
structure VMInfo where
  name : Str
  pid : Option Int
  disk : Str
  started_at : Str
  config : Option VMConfig
  deriving DecidableEq

/-- What `json.load` plus the record-shape assumptions yield for one backing
file: a record object, a `json.JSONDecodeError` (malformed JSON), or a
syntactically valid JSON value that is not an object, on which
`info.get("pid")` raises an uncaught `AttributeError`. -/
inductive ParseOutcome where
  | record (info : VMInfo)
  | badJson
  | nonObj
  deriving DecidableEq

/-- One `*.json` file in the run directory: its stem and what reading it
produces. -/
structure FileEntry where
  fname : Str
  parse : ParseOutcome
  deriving DecidableEq

/-- Result of `get_running_vms`: `crashed` marks an uncaught exception
(the enumeration raises instead of returning, leaving `vms` meaningless);
`kept` is the run directory after the call (dead entries unlinked); `probed`
logs every pid passed to `is_process_running`, in call order. -/
structure GRV where
  crashed : Bool
  vms : List VMInfo
  kept : List FileEntry
  probed : List Int
  deriving DecidableEq

/-- Embedding of `get_running_vms` (vmctl.py lines 74-91).  For each file:
a JSON decode error is silently skipped (file kept); a non-object JSON value
raises `AttributeError` at `info.get`, which the `except` clause does not
catch, aborting the whole call with the remaining files untouched; a record
with a falsy pid (absent, `null`, `0`) is unlinked without probing; otherwise
the pid is probed and the record is returned and kept iff the probe reports
the process alive, the file being unlinked when it does not. -/
def get_running_vms (probe : Int → ProbeRes) : List FileEntry → GRV
  | [] => ⟨false, [], [], []⟩
  | e :: rest =>
    match e.parse with
    | .badJson =>
      let r := get_running_vms probe rest
      ⟨r.crashed, r.vms, e :: r.kept, r.probed⟩
    | .nonObj => ⟨true, [], e :: rest, []⟩
    | .record info =>
      match info.pid with
      | none =>
        let r := get_running_vms probe rest
        ⟨r.crashed, r.vms, r.kept, r.probed⟩
      | some p =>
        if p = 0 then
          let r := get_running_vms probe rest
          ⟨r.crashed, r.vms, r.kept, r.probed⟩
        else if is_process_running (probe p) then
          let r := get_running_vms probe rest
          ⟨r.crashed, info :: r.vms, e :: r.kept, p :: r.probed⟩
        else
          let r := get_running_vms probe rest
          ⟨r.crashed, r.vms, r.kept, p :: r.probed⟩

/-- Embedding of `remove_vm_info` (vmctl.py lines 67-71): unlink
`{name}.json` if present; removing an absent record is a no-op. -/
def remove_vm_info (name : Str) (dir : List FileEntry) : List FileEntry :=
  dir.filter (fun e => ¬ e.fname = name)

/-- Embedding of `save_vm_info` (vmctl.py lines 52-64): write `{name}.json`,
overwriting any file of that name. -/
def save_vm_info (name : Str) (info : VMInfo) (dir : List FileEntry) : List FileEntry :=
  remove_vm_info name dir ++ [⟨name, .record info⟩]

/-- The condition under which `get_running_vms` keeps and returns a parsed
record: truthy pid and a successful liveness probe. -/
def liveRec (probe : Int → ProbeRes) (info : VMInfo) : Bool :=
  match info.pid with
  | some p => if p = 0 then false else is_process_running (probe p)
  | none => false

/-- The condition under which `get_running_vms` keeps a file on disk. -/
def keepEntry (probe : Int → ProbeRes) (e : FileEntry) : Bool :=
  match e.parse with
  | .badJson => true
  | .nonObj => false
  | .record info => liveRec probe info

/-- The record an entry contributes to the result of `get_running_vms`. -/
def liveOf (probe : Int → ProbeRes) (e : FileEntry) : Option VMInfo :=
  match e.parse with
  | .record info => if liveRec probe info then some info else none
  | _ => none

/-- The pid an entry sends to the liveness prober, when it sends one. -/
def probeOf (e : FileEntry) : Option Int :=
  match e.parse with
  | .record info =>
    match info.pid with
    | some p => if p = 0 then none else some p
    | none => none
  | _ => none

/-- Observable events of `stop_vm`, in order: an attempted `os.kill` with
SIGTERM or SIGKILL (attempted even when the OS answers ESRCH or EPERM), one
`time.sleep(0.5)` pause, and one liveness poll with its boolean verdict. -/
inductive Ev where
  | sigterm
  | sigkill
  | sleepHalf
  | poll (alive : Bool)
  deriving DecidableEq

/-- The graceful-wait loop of `stop_vm` (vmctl.py lines 291-294):
`for _ in range(fuel): sleep(0.5); if not is_process_running(pid): break`.
The step oracle gives the probe outcome of the i-th syscall on this pid;
polls use indices `i, i+1, ...`.  Returns the event trace and whether the
loop ran to completion with the process still alive (the for-else case). -/
def pollLoop (step : Nat → ProbeRes) : Nat → Nat → List Ev × Bool
  | _, 0 => ([], true)
  | i, fuel + 1 =>
    if is_process_running (step i) then
      let r := pollLoop step (i + 1) fuel
      (Ev.sleepHalf :: Ev.poll true :: r.1, r.2)
    else ([Ev.sleepHalf, Ev.poll false], false)

/-- Result of `stop_vm`: the event trace, whether `remove_vm_info` ran, and
the return code. -/
structure StopRes where
  events : List Ev
  removed : Bool
  ret : Int
  deriving DecidableEq

/-- Embedding of `stop_vm` (vmctl.py lines 281-309).  The step oracle gives
the outcome of the i-th syscall on the target pid: index 0 is the initial
kill (SIGKILL when forced, SIGTERM otherwise), indices 1..10 are the liveness
polls of the graceful wait, index 11 is the escalation SIGKILL.
`ProcessLookupError` (esrch) removes the record and returns 0;
`PermissionError` (eperm) returns 1 without touching the record; in the
poll loop an OS error merely reads as "not running" and breaks. -/
def stop_vm (step : Nat → ProbeRes) (force : Bool) : StopRes :=
  if force then
    match step 0 with
    | .ok => ⟨[Ev.sigkill], true, 0⟩
    | .esrch => ⟨[Ev.sigkill], true, 0⟩
    | .eperm => ⟨[Ev.sigkill], false, 1⟩
  else
    match step 0 with
    | .esrch => ⟨[Ev.sigterm], true, 0⟩
    | .eperm => ⟨[Ev.sigterm], false, 1⟩
    | .ok =>
      let r := pollLoop step 1 10
      if r.2 then
        match step 11 with
        | .ok => ⟨Ev.sigterm :: r.1 ++ [Ev.sigkill], true, 0⟩
        | .esrch => ⟨Ev.sigterm :: r.1 ++ [Ev.sigkill], true, 0⟩
        | .eperm => ⟨Ev.sigterm :: r.1 ++ [Ev.sigkill], false, 1⟩
      else ⟨Ev.sigterm :: r.1, true, 0⟩

/-- World state for `cmd_stop`: the run directory, the enumeration-time probe
outcome per pid, and the per-pid syscall-step oracle used once `stop_vm`
signals a chosen target. -/
structure StopWorld where
  dir : List FileEntry
  probe : Int → ProbeRes
  stepProbe : Int → Nat → ProbeRes

/-- Arguments of the stop command: positional name-or-pid, `--all`,
`--force`. -/
structure CmdStopArgs where
  name : Option Str
  all : Bool
  force : Bool

/-- Result of `cmd_stop`: `crashed` marks an uncaught exception propagating
out of `get_running_vms` (the interpreter then exits non-zero), `ret` the
return code, `dirAfter` the run directory when the command ends. -/
structure CmdStopRes where
  crashed : Bool
  ret : Int
  dirAfter : List FileEntry
  deriving DecidableEq

/-- The `--all` loop of `cmd_stop` (vmctl.py lines 247-248): run `stop_vm`
on every enumerated record in order, applying each record removal to the
directory. -/
def stopAll (stepProbe : Int → Nat → ProbeRes) (force : Bool) :
    List VMInfo → List FileEntry → List FileEntry
  | [], d => d
  | vm :: rest, d =>
    let r := stop_vm (stepProbe (vm.pid.getD 0)) force
    stopAll stepProbe force rest (if r.removed then remove_vm_info vm.name d else d)

/-- Embedding of `cmd_stop` (vmctl.py lines 237-278).  Enumerate (with its
pruning side effects); with `--all`, stop every live record and return 0,
or report the no-op notice and return 0 when none is live.  Otherwise the
source checks `if not args.name`, which is truthy both for an absent name
and for the empty string: either way the name-required usage error is
reported with return code 1 before any resolution.  A nonempty target is
resolved by exact name match first, then by parsing the argument as a pid;
no match reports a not-found error (return 1), a match delegates to
`stop_vm`. -/
def cmd_stop (w : StopWorld) (args : CmdStopArgs) : CmdStopRes :=
  let g := get_running_vms w.probe w.dir
  if g.crashed then ⟨true, 1, g.kept⟩
  else if args.all then
    if g.vms.isEmpty then ⟨false, 0, g.kept⟩
    else ⟨false, 0, stopAll w.stepProbe args.force g.vms g.kept⟩
  else
    match args.name with
    | none => ⟨false, 1, g.kept⟩
    | some nm =>
      if nm = [] then ⟨false, 1, g.kept⟩
      else
        let target :=
          match g.vms.find? (fun v => v.name == nm) with
          | some v => some v
          | none =>
            match pyInt nm with
            | some k => g.vms.find? (fun v => v.pid == some k)
            | none => none
        match target with
        | none => ⟨false, 1, g.kept⟩
        | some vm =>
          let r := stop_vm (w.stepProbe (vm.pid.getD 0)) args.force
          ⟨false, r.ret, if r.removed then remove_vm_info vm.name g.kept else g.kept⟩

/-- Python `x or default` for an optional string argument: `None` and the
empty string are falsy and fall back to the default. -/
def pyOrStr (o : Option Str) (d : Str) : Str :=
  match o with
  | some s => if s = [] then d else s
  | none => d

/-- Python `x or default` for an optional integer argument: `None` and `0`
are falsy and fall back to the default. -/
def pyOrInt (o : Option Int) (d : Int) : Int :=
  match o with
  | some n => if n = 0 then d else n
  | none => d

/-- The effective configuration as loaded by `load_config` (vmctl.py lines
28-35 and 44-49); only the keys the lifecycle controller reads. -/
structure Config where
  default_cpu : Int
  default_memory : Str
  default_disk : Str
  vmstart_binary : Str
  seed_iso : Str

/-- Arguments of the start command (argparse defaults are `None`). -/
structure StartArgs where
  name : Option Str
  disk : Option Str
  seed : Option Str
  cpu : Option Int
  memory : Option Str
  binary : Option Str
  foreground : Bool

/-- World state for `cmd_start`: the run directory and enumeration probe,
the filesystem existence oracle and absolute-path resolver, the clock
(`int(time.time())` for generated names, the ISO timestamp for records),
and the pid the spawn returns.  Directory creation (`ensure_dirs`) and the
codesign/spawn subprocess machinery are assumed to succeed and carry no
modelled state. -/
structure StartWorld where
  dir : List FileEntry
  probe : Int → ProbeRes
  fsExists : Str → Bool
  abspath : Str → Str
  now : Int
  nowIso : Str
  spawnPid : Int

/-- Result of `cmd_start`.  `crashed` marks an uncaught exception (the
`ValueError` of `parse_memory`, or the `AttributeError` propagating out of
`get_running_vms`); `configFileWritten` records the creation of the
per-name `{name}_config.json` artifact (vmctl.py lines 174-177), which lives
beside the records but is never a registry record (a later enumeration
deletes it as a pid-less entry); `recordWritten` is the payload passed to
`save_vm_info`, if reached; `dirAfter` is the record directory when the
command returns. -/
structure StartRes where
  crashed : Bool
  ret : Int
  spawned : Bool
  configFileWritten : Bool
  logCreated : Bool
  recordWritten : Option VMInfo
  dirAfter : List FileEntry
  deriving DecidableEq

/-- Name resolution of `cmd_start` (vmctl.py line 134):
the explicit name, or the generated `vm-<unix_timestamp>`. -/
def resolveName (args : StartArgs) (w : StartWorld) : Str :=
  pyOrStr args.name (['v', 'm', '-'] ++ intChars w.now)

/-- Disk resolution of `cmd_start` (vmctl.py line 144). -/
def resolveDisk (args : StartArgs) (cfg : Config) : Str :=
  pyOrStr args.disk cfg.default_disk

/-- Seed resolution of `cmd_start` (vmctl.py line 151). -/
def resolveSeed (args : StartArgs) (cfg : Config) : Str :=
  pyOrStr args.seed cfg.seed_iso

/-- CPU-count resolution of `cmd_start` (vmctl.py line 156). -/
def resolveCpu (args : StartArgs) (cfg : Config) : Int :=
  pyOrInt args.cpu cfg.default_cpu

/-- Memory-spec resolution of `cmd_start` (vmctl.py line 157). -/
def resolveMemory (args : StartArgs) (cfg : Config) : Str :=
  pyOrStr args.memory cfg.default_memory

/-- Helper-binary resolution of `cmd_start` (vmctl.py line 189). -/
def resolveBinary (args : StartArgs) (cfg : Config) : Str :=
  pyOrStr args.binary cfg.vmstart_binary

/-- Embedding of `cmd_start` (vmctl.py lines 129-234), in source order:
resolve the name; enumerate the registry (with its pruning side effects) and
reject a live name clash; reject a missing disk image; warn-but-continue on
a missing seed; parse the memory spec (an unparsable spec raises an uncaught
`ValueError`); build `vm_config` and write the `{name}_config.json` file;
reject a missing helper binary; then spawn.  In foreground mode the record
is saved after spawn, the caller blocks, and the record is removed again on
every exit path; in background mode the per-name log file is created, the
helper is spawned detached, and the record is saved durably. -/
def cmd_start (cfg : Config) (args : StartArgs) (w : StartWorld) : StartRes :=
  let name := resolveName args w
  let g := get_running_vms w.probe w.dir
  if g.crashed then ⟨true, 1, false, false, false, none, g.kept⟩
  else if g.vms.any (fun v => v.name == name) then
    ⟨false, 1, false, false, false, none, g.kept⟩
  else
    let disk := resolveDisk args cfg
    if ¬ w.fsExists disk then ⟨false, 1, false, false, false, none, g.kept⟩
    else
      let seed := resolveSeed args cfg
      let cpu := resolveCpu args cfg
      let memory := resolveMemory args cfg
      match parse_memory memory with
      | none => ⟨true, 1, false, false, false, none, g.kept⟩
      | some memBytes =>
        let vmc : VMConfig :=
          ⟨cpu, memory, memBytes, w.abspath disk,
            if w.fsExists seed then some (w.abspath seed) else none⟩
        let binary := resolveBinary args cfg
        if ¬ w.fsExists binary then ⟨false, 1, false, true, false, none, g.kept⟩
        else
          let info : VMInfo := ⟨name, some w.spawnPid, disk, w.nowIso, some vmc⟩
          if args.foreground then
            ⟨false, 0, true, true, false, some info, remove_vm_info name g.kept⟩
          else
            ⟨false, 0, true, true, true, some info, save_vm_info name info g.kept⟩

theorem dropWhile_eq_self_of {p : Char → Bool} {l : Str}
    (h : ∀ c ∈ l, p c = false) : l.dropWhile p = l := by
  cases l with
  | nil => rfl
  | cons a t => simp [List.dropWhile_cons, h a (by simp)]

theorem pyStrip_eq_self {l : Str} (h : ∀ c ∈ l, isPySpace c = false) :
    pyStrip l = l := by
  unfold pyStrip
  rw [dropWhile_eq_self_of h, dropWhile_eq_self_of, List.reverse_reverse]
  intro c hc
  exact h c (List.mem_reverse.mp hc)

theorem upperChar_of_digit {c : Char} (h : isAsciiDigit c = true) :
    upperChar c = c := by
  simp only [isAsciiDigit, decide_eq_true_eq] at h
  unfold upperChar
  rw [if_neg]
  omega

theorem digit_not_space {c : Char} (h : isAsciiDigit c = true) :
    isPySpace c = false := by
  simp only [isAsciiDigit, decide_eq_true_eq] at h
  simp only [isPySpace, decide_eq_false_iff_not]
  omega

theorem map_upperChar_of_digits {l : Str} (h : ∀ c ∈ l, isAsciiDigit c = true) :
    l.map upperChar = l := by
  induction l with
  | nil => rfl
  | cons a t ih =>
    simp only [List.map_cons, upperChar_of_digit (h a (by simp)), List.cons.injEq,
      true_and]
    exact ih (fun c hc => h c (by simp [hc]))

theorem okTail_one (c : Char) : okTail [c] = isAsciiDigit c := rfl

theorem okTail_cons₂ (a b : Char) (r : Str) :
    okTail (a :: b :: r) =
      if isAsciiDigit a then okTail (b :: r)
      else if a = '_' then isAsciiDigit b && okTail (b :: r)
      else false := rfl

theorem okTail_of_digits {l : Str} (h : ∀ c ∈ l, isAsciiDigit c = true) :
    okTail l = true := by
  induction l with
  | nil => rfl
  | cons a t ih =>
    cases t with
    | nil => simpa [okTail_one] using h a (by simp)
    | cons b t2 =>
      simp only [okTail_cons₂, h a (by simp), if_true]
      exact ih (fun c hc => h c (by simp [hc]))

theorem okTail_append_nondigit {c : Char} (hc : isAsciiDigit c = false) :
    ∀ l : Str, okTail (l ++ [c]) = false := by
  intro l
  induction l with
  | nil => simp [okTail_one, hc]
  | cons a t ih =>
    cases t with
    | nil =>
      by_cases ha : isAsciiDigit a
      · simp [okTail_cons₂, okTail_one, ha, hc]
      · by_cases ha2 : a = '_' <;> simp [okTail_cons₂, okTail_one, ha, ha2, hc]
    | cons b t2 =>
      have ih2 : okTail (b :: (t2 ++ [c])) = false := by simpa using ih
      by_cases ha : isAsciiDigit a
      · simp [okTail_cons₂, ha, ih2]
      · by_cases ha2 : a = '_' <;> simp [okTail_cons₂, ha, ha2, ih2]

theorem okBody_of_digits {l : Str} (h0 : l ≠ [])
    (h : ∀ c ∈ l, isAsciiDigit c = true) : okBody l = true := by
  cases l with
  | nil => exact absurd rfl h0
  | cons a t =>
    simp only [okBody, h a (by simp), Bool.true_and]
    exact okTail_of_digits (fun c hc => h c (by simp [hc]))

theorem okBody_append_nondigit {c : Char} (hc : isAsciiDigit c = false)
    (l : Str) : okBody (l ++ [c]) = false := by
  cases l with
  | nil => simp [okBody, hc]
  | cons a t =>
    simp only [List.cons_append, okBody, okTail_append_nondigit hc t,
      Bool.and_false]

theorem digitsVal_append_digit {c : Char} (hc : isAsciiDigit c = true)
    (l : Str) : digitsVal (l ++ [c]) = 10 * digitsVal l + (c.toNat - 48) := by
  simp [digitsVal, List.foldl_append, hc]

theorem digit_ne_plus {c : Char} (h : isAsciiDigit c = true) : c ≠ '+' := by
  intro he
  subst he
  exact absurd h (by decide)

theorem digit_ne_minus {c : Char} (h : isAsciiDigit c = true) : c ≠ '-' := by
  intro he
  subst he
  exact absurd h (by decide)

theorem pyInt_of_digits {l : Str} (h0 : l ≠ [])
    (h : ∀ c ∈ l, isAsciiDigit c = true) :
    pyInt l = some (digitsVal l : Int) := by
  unfold pyInt
  rw [pyStrip_eq_self (fun c hc => digit_not_space (h c hc))]
  cases l with
  | nil => exact absurd rfl h0
  | cons a t =>
    have ha := h a (by simp)
    simp [digit_ne_plus ha, digit_ne_minus ha, okBody_of_digits h0 h]

theorem pyInt_append_nondigit {l : Str} {c : Char} (h0 : l ≠ [])
    (h : ∀ x ∈ l, isAsciiDigit x = true) (hs : isPySpace c = false)
    (hd : isAsciiDigit c = false) : pyInt (l ++ [c]) = none := by
  unfold pyInt
  rw [pyStrip_eq_self]
  · cases l with
    | nil => exact absurd rfl h0
    | cons a t =>
      have ha := h a (by simp)
      have hb : okBody (a :: (t ++ [c])) = false := by
        simpa using okBody_append_nondigit hd (a :: t)
      simp [digit_ne_plus ha, digit_ne_minus ha, hb]
  · intro x hx
    rcases List.mem_append.mp hx with h1 | h1
    · exact digit_not_space (h x h1)
    · simp only [List.mem_singleton] at h1
      exact h1 ▸ hs

theorem nospace_append {l : Str} {c : Char}
    (h : ∀ x ∈ l, isAsciiDigit x = true) (hs : isPySpace c = false) :
    ∀ x ∈ l ++ [c], isPySpace x = false := by
  intro x hx
  rcases List.mem_append.mp hx with h1 | h1
  · exact digit_not_space (h x h1)
  · simp only [List.mem_singleton] at h1
    exact h1 ▸ hs

theorem parse_memory_append_G {l : Str} (h0 : l ≠ [])
    (h : ∀ c ∈ l, isAsciiDigit c = true) :
    parse_memory (l ++ ['G']) = some ((digitsVal l : Int) * (1024 * 1024 * 1024)) := by
  simp only [parse_memory]
  rw [pyStrip_eq_self (nospace_append h (by decide)), List.map_append,
    map_upperChar_of_digits h]
  have hG : List.map upperChar ['G'] = ['G'] := by decide
  rw [hG, List.getLast?_concat, List.dropLast_concat]
  simp [pyInt_of_digits h0 h]

theorem parse_memory_append_M {l : Str} (h0 : l ≠ [])
    (h : ∀ c ∈ l, isAsciiDigit c = true) :
    parse_memory (l ++ ['M']) = some ((digitsVal l : Int) * (1024 * 1024)) := by
  simp only [parse_memory]
  rw [pyStrip_eq_self (nospace_append h (by decide)), List.map_append,
    map_upperChar_of_digits h]
  have hM : List.map upperChar ['M'] = ['M'] := by decide
  rw [hM, List.getLast?_concat, List.dropLast_concat]
  simp [pyInt_of_digits h0 h]

theorem parse_memory_append_K {l : Str} (h0 : l ≠ [])
    (h : ∀ c ∈ l, isAsciiDigit c = true) :
    parse_memory (l ++ ['K']) = some ((digitsVal l : Int) * 1024) := by
  simp only [parse_memory]
  rw [pyStrip_eq_self (nospace_append h (by decide)), List.map_append,
    map_upperChar_of_digits h]
  have hK : List.map upperChar ['K'] = ['K'] := by decide
  rw [hK, List.getLast?_concat, List.dropLast_concat]
  simp [pyInt_of_digits h0 h]

theorem parse_memory_digits {l : Str} (h0 : l ≠ [])
    (h : ∀ c ∈ l, isAsciiDigit c = true) :
    parse_memory l = some (digitsVal l : Int) := by
  simp only [parse_memory]
  rw [pyStrip_eq_self (fun c hc => digit_not_space (h c hc)),
    map_upperChar_of_digits h]
  have hlast : l.getLast? = some (l.getLast h0) := List.getLast?_eq_getLast l h0
  have hd : isAsciiDigit (l.getLast h0) = true := h _ (List.getLast_mem h0)
  have hG : ¬ l.getLast h0 = 'G' := by
    intro he
    rw [he] at hd
    exact absurd hd (by decide)
  have hM : ¬ l.getLast h0 = 'M' := by
    intro he
    rw [he] at hd
    exact absurd hd (by decide)
  have hK : ¬ l.getLast h0 = 'K' := by
    intro he
    rw [he] at hd
    exact absurd hd (by decide)
  rw [hlast]
  simp [hG, hM, hK, pyInt_of_digits h0 h]

theorem parse_memory_append_bad {l : Str} {c : Char} (h0 : l ≠ [])
    (h : ∀ x ∈ l, isAsciiDigit x = true)
    (hs : isPySpace c = false) (hs2 : isPySpace (upperChar c) = false)
    (hd : isAsciiDigit (upperChar c) = false)
    (hG : ¬ upperChar c = 'G') (hM : ¬ upperChar c = 'M')
    (hK : ¬ upperChar c = 'K') :
    parse_memory (l ++ [c]) = none := by
  simp only [parse_memory]
  rw [pyStrip_eq_self (nospace_append h hs), List.map_append,
    map_upperChar_of_digits h]
  simp only [List.map_cons, List.map_nil]
  rw [List.getLast?_concat]
  simp only [hG, hM, hK, if_false]
  exact pyInt_append_nondigit h0 h hs2 hd

theorem digitChar_digit {m : Nat} (h : m < 10) :
    isAsciiDigit (digitChar m) = true := by
  interval_cases m <;> decide

theorem digitChar_toNat {m : Nat} (h : m < 10) :
    (digitChar m).toNat - 48 = m := by
  interval_cases m <;> decide

theorem natCharsAux_ne_nil : ∀ fuel n, n < fuel → natCharsAux fuel n ≠ [] := by
  intro fuel
  induction fuel with
  | zero => omega
  | succ f ih =>
    intro n hn
    by_cases h10 : n < 10 <;> simp [natCharsAux, h10]

theorem natCharsAux_digits : ∀ fuel n, n < fuel →
    ∀ c ∈ natCharsAux fuel n, isAsciiDigit c = true := by
  intro fuel
  induction fuel with
  | zero => omega
  | succ f ih =>
    intro n hn c hc
    by_cases h10 : n < 10
    · simp only [natCharsAux, h10, if_true, List.mem_singleton] at hc
      exact hc ▸ digitChar_digit h10
    · simp only [natCharsAux, h10, if_false, List.mem_append,
        List.mem_singleton] at hc
      rcases hc with h1 | h1
      · have hlt : n / 10 < n := Nat.div_lt_self (by omega) (by omega)
        exact ih (n / 10) (by omega) c h1
      · exact h1 ▸ digitChar_digit (Nat.mod_lt n (by omega))

theorem digitsVal_natCharsAux : ∀ fuel n, n < fuel →
    digitsVal (natCharsAux fuel n) = n := by
  intro fuel
  induction fuel with
  | zero => omega
  | succ f ih =>
    intro n hn
    by_cases h10 : n < 10
    · simp only [natCharsAux, h10, if_true]
      have : digitsVal [digitChar n] = (digitChar n).toNat - 48 := by
        simp [digitsVal, digitChar_digit h10]
      rw [this, digitChar_toNat h10]
    · simp only [natCharsAux, h10, if_false]
      have hlt : n / 10 < n := Nat.div_lt_self (by omega) (by omega)
      rw [digitsVal_append_digit (digitChar_digit (Nat.mod_lt n (by omega))),
        ih (n / 10) (by omega), digitChar_toNat (Nat.mod_lt n (by omega))]
      omega

theorem natChars_ne_nil (n : Nat) : natChars n ≠ [] :=
  natCharsAux_ne_nil (n + 1) n (by omega)

theorem natChars_digits (n : Nat) : ∀ c ∈ natChars n, isAsciiDigit c = true :=
  natCharsAux_digits (n + 1) n (by omega)

theorem digitsVal_natChars (n : Nat) : digitsVal (natChars n) = n :=
  digitsVal_natCharsAux (n + 1) n (by omega)

/-- C7.  On the embedding of `parse_memory`: for any nonempty digit string,
a trailing G multiplies the denoted integer by 2^30, M by 2^20, K by 2^10;
with no suffix the string denotes a literal byte count; and appending any
unrecognized suffix character (one that is not whitespace and whose
uppercased form is neither a digit continuation nor G, M or K) makes parsing
fail fatally with `none` instead of returning a value. -/
theorem parse_memory_spec_c7 (ds : Str) (c : Char)
    (hne : ds ≠ []) (hds : ∀ x ∈ ds, isAsciiDigit x = true)
    (hs : isPySpace c = false) (hs2 : isPySpace (upperChar c) = false)
    (hd : isAsciiDigit (upperChar c) = false)
    (hG : ¬ upperChar c = 'G') (hM : ¬ upperChar c = 'M')
    (hK : ¬ upperChar c = 'K') :
    parse_memory (ds ++ ['G']) = some ((digitsVal ds : Int) * 2 ^ 30) ∧
    parse_memory (ds ++ ['M']) = some ((digitsVal ds : Int) * 2 ^ 20) ∧
    parse_memory (ds ++ ['K']) = some ((digitsVal ds : Int) * 2 ^ 10) ∧
    parse_memory ds = some (digitsVal ds : Int) ∧
    parse_memory (ds ++ [c]) = none := by
  refine ⟨?_, ?_, ?_, parse_memory_digits hne hds,
    parse_memory_append_bad hne hds hs hs2 hd hG hM hK⟩
  · rw [parse_memory_append_G hne hds]
    norm_num
  · rw [parse_memory_append_M hne hds]
    norm_num
  · rw [parse_memory_append_K hne hds]
    norm_num

/-- Witness for C7 at the concrete input 42 with unrecognized suffix T. -/
theorem parse_memory_spec_c7_witness :
    parse_memory (['4', '2'] ++ ['G']) = some ((digitsVal ['4', '2'] : Int) * 2 ^ 30) ∧
    parse_memory (['4', '2'] ++ ['M']) = some ((digitsVal ['4', '2'] : Int) * 2 ^ 20) ∧
    parse_memory (['4', '2'] ++ ['K']) = some ((digitsVal ['4', '2'] : Int) * 2 ^ 10) ∧
    parse_memory ['4', '2'] = some (digitsVal ['4', '2'] : Int) ∧
    parse_memory (['4', '2'] ++ ['T']) = none :=
  parse_memory_spec_c7 ['4', '2'] 'T' (by decide) (by decide) (by decide)
    (by decide) (by decide) (by decide) (by decide) (by decide)

theorem intChars_natCast (q : Nat) : intChars (q : Int) = natChars q := by
  unfold intChars
  rw [if_neg (Int.not_lt.mpr (Int.natCast_nonneg q)), Int.toNat_natCast]

theorem fdiv_natCast (m k : Nat) :
    Int.fdiv (m : Int) (k : Int) = ((m / k : Nat) : Int) := by
  rw [Int.fdiv_eq_ediv _ (Int.natCast_nonneg k)]
  exact (Int.natCast_div m k).symm

theorem memBucket_natCast (x : Nat) : memBucket (x : Int) =
    (if 1024 * 1024 * 1024 ≤ x then 2
     else if 1024 * 1024 ≤ x then 1 else 0 : Nat) := by
  unfold memBucket
  by_cases h1 : (1024 * 1024 * 1024 : Nat) ≤ x
  · rw [if_pos (by exact_mod_cast h1), if_pos h1]
  · rw [if_neg (by exact_mod_cast h1), if_neg h1]
    by_cases h2 : (1024 * 1024 : Nat) ≤ x
    · rw [if_pos (by exact_mod_cast h2), if_pos h2]
    · rw [if_neg (by exact_mod_cast h2), if_neg h2]

theorem format_parse_roundtrip (b : Nat) :
    ∃ v : Nat, parse_memory (format_memory (b : Int)) = some (v : Int) ∧
      memBucket (v : Int) = memBucket (b : Int) := by
  have hcastG : (1024 * 1024 * 1024 : Int) = ((1024 * 1024 * 1024 : Nat) : Int) := by
    norm_cast
  have hcastM : (1024 * 1024 : Int) = ((1024 * 1024 : Nat) : Int) := by norm_cast
  have hcastK : (1024 : Int) = ((1024 : Nat) : Int) := by norm_cast
  by_cases h1 : (1024 * 1024 * 1024 : Nat) ≤ b
  · refine ⟨(b / (1024 * 1024 * 1024)) * (1024 * 1024 * 1024), ?_, ?_⟩
    · unfold format_memory
      rw [if_pos (by exact_mod_cast h1), hcastG, fdiv_natCast, intChars_natCast,
        parse_memory_append_G (natChars_ne_nil _) (natChars_digits _),
        digitsVal_natChars]
      push_cast
      ring_nf
    · rw [memBucket_natCast, memBucket_natCast]
      have hd : 1 ≤ b / (1024 * 1024 * 1024) :=
        (Nat.one_le_div_iff (by norm_num)).mpr h1
      have hv : 1024 * 1024 * 1024 ≤ (b / (1024 * 1024 * 1024)) * (1024 * 1024 * 1024) :=
        Nat.le_mul_of_pos_left (1024 * 1024 * 1024) hd
      rw [if_pos hv, if_pos h1]
  · by_cases h2 : (1024 * 1024 : Nat) ≤ b
    · refine ⟨(b / (1024 * 1024)) * (1024 * 1024), ?_, ?_⟩
      · unfold format_memory
        rw [if_neg (by exact_mod_cast h1), if_pos (by exact_mod_cast h2), hcastM,
          fdiv_natCast, intChars_natCast,
          parse_memory_append_M (natChars_ne_nil _) (natChars_digits _),
          digitsVal_natChars]
        push_cast
        ring_nf
      · rw [memBucket_natCast, memBucket_natCast]
        have hd : 1 ≤ b / (1024 * 1024) := (Nat.one_le_div_iff (by norm_num)).mpr h2
        have hlo : 1024 * 1024 ≤ (b / (1024 * 1024)) * (1024 * 1024) :=
          Nat.le_mul_of_pos_left (1024 * 1024) hd
        have hub := Nat.div_mul_le_self b (1024 * 1024)
        rw [if_neg (by omega), if_pos hlo, if_neg h1, if_pos h2]
    · refine ⟨(b / 1024) * 1024, ?_, ?_⟩
      · unfold format_memory
        rw [if_neg (by exact_mod_cast h1), if_neg (by exact_mod_cast h2), hcastK,
          fdiv_natCast, intChars_natCast,
          parse_memory_append_K (natChars_ne_nil _) (natChars_digits _),
          digitsVal_natChars]
        push_cast
        ring_nf
      · rw [memBucket_natCast, memBucket_natCast]
        have hub := Nat.div_mul_le_self b 1024
        rw [if_neg (by omega), if_neg (by omega), if_neg h1, if_neg h2]

/-- C8.  Round-trip between `format_memory` and `parse_memory`: for every
non-negative byte count, parsing the formatted rendering succeeds and the
parsed value lies in the same size bucket as the input; in particular
formatting 2147483648 bytes yields "2G" and parsing "2G" yields exactly
2147483648. -/
theorem memory_roundtrip_c8 :
    (∀ b : Nat, ∃ v : Nat,
        parse_memory (format_memory (b : Int)) = some (v : Int) ∧
        memBucket (v : Int) = memBucket (b : Int)) ∧
    format_memory (2147483648 : Int) = ['2', 'G'] ∧
    parse_memory ['2', 'G'] = some (2147483648 : Int) :=
  ⟨format_parse_roundtrip, by decide, by decide⟩

theorem grv_characterization (probe : Int → ProbeRes) :
    ∀ dir : List FileEntry, (get_running_vms probe dir).crashed = false →
      (get_running_vms probe dir).vms = dir.filterMap (liveOf probe) ∧
      (get_running_vms probe dir).kept = dir.filter (keepEntry probe) ∧
      (get_running_vms probe dir).probed = dir.filterMap probeOf := by
  intro dir
  induction dir with
  | nil => exact fun _ => ⟨rfl, rfl, rfl⟩
  | cons e rest ih =>
    intro h
    rcases he : e.parse with info | _ | _
    · rcases hp : info.pid with _ | p
      · have h' : (get_running_vms probe rest).crashed = false := by
          simpa [get_running_vms, he, hp] using h
        obtain ⟨h1, h2, h3⟩ := ih h'
        simp [get_running_vms, he, hp, liveOf, keepEntry, probeOf, liveRec,
          h1, h2, h3]
      · by_cases hz : p = 0
        · subst hz
          have h' : (get_running_vms probe rest).crashed = false := by
            simpa [get_running_vms, he, hp] using h
          obtain ⟨h1, h2, h3⟩ := ih h'
          simp [get_running_vms, he, hp, liveOf, keepEntry, probeOf, liveRec,
            h1, h2, h3]
        · by_cases halive : is_process_running (probe p) = true
          · have h' : (get_running_vms probe rest).crashed = false := by
              simpa [get_running_vms, he, hp, hz, halive] using h
            obtain ⟨h1, h2, h3⟩ := ih h'
            simp [get_running_vms, he, hp, hz, halive, liveOf, keepEntry,
              probeOf, liveRec, h1, h2, h3]
          · have h' : (get_running_vms probe rest).crashed = false := by
              simpa [get_running_vms, he, hp, hz, halive] using h
            obtain ⟨h1, h2, h3⟩ := ih h'
            simp [get_running_vms, he, hp, hz, halive, liveOf, keepEntry,
              probeOf, liveRec, h1, h2, h3]
    · have h' : (get_running_vms probe rest).crashed = false := by
        simpa [get_running_vms, he] using h
      obtain ⟨h1, h2, h3⟩ := ih h'
      simp [get_running_vms, he, liveOf, keepEntry, probeOf, h1, h2, h3]
    · exfalso
      have : (get_running_vms probe (e :: rest)).crashed = true := by
        simp [get_running_vms, he]
      rw [this] at h
      exact absurd h (by decide)

theorem liveOf_eq_some {probe : Int → ProbeRes} {e : FileEntry} {info : VMInfo}
    (h : liveOf probe e = some info) :
    e.parse = ParseOutcome.record info ∧ liveRec probe info = true := by
  rcases he : e.parse with i | _ | _
  · by_cases hl : liveRec probe i = true
    · simp only [liveOf, he, hl, if_true, Option.some.injEq] at h
      subst h
      exact ⟨rfl, hl⟩
    · simp [liveOf, he, hl] at h
  · simp [liveOf, he] at h
  · simp [liveOf, he] at h

theorem liveRec_eq_true {probe : Int → ProbeRes} {info : VMInfo}
    (h : liveRec probe info = true) :
    ∃ p : Int, info.pid = some p ∧ p ≠ 0 ∧ is_process_running (probe p) = true := by
  rcases hp : info.pid with _ | p
  · simp [liveRec, hp] at h
  · by_cases hz : p = 0
    · simp [liveRec, hp, hz] at h
    · simp only [liveRec, hp, hz, if_false] at h
      exact ⟨p, rfl, hz, h⟩

theorem probeOf_eq_some {e : FileEntry} {p : Int} (h : probeOf e = some p) :
    p ≠ 0 ∧ ∃ info, e.parse = ParseOutcome.record info ∧ info.pid = some p := by
  rcases he : e.parse with info | _ | _
  · rcases hp : info.pid with _ | q
    · simp [probeOf, he, hp] at h
    · by_cases hz : q = 0
      · simp [probeOf, he, hp, hz] at h
      · simp only [probeOf, he, hp, hz, if_false, Option.some.injEq] at h
        subst h
        exact ⟨hz, info, rfl, hp⟩
  · simp [probeOf, he] at h
  · simp [probeOf, he] at h

/-- C1.  When `get_running_vms` returns (no uncaught exception): every record
in the returned list has a pid whose liveness probe succeeded during this
very enumeration, and every successfully parsed record that is not confirmed
alive is excluded from the result and its backing file is gone from the
directory after the call — the reconciliation happens inside the
enumeration itself. -/
theorem get_running_vms_c1 (probe : Int → ProbeRes) (dir : List FileEntry)
    (h : (get_running_vms probe dir).crashed = false) :
    (∀ info ∈ (get_running_vms probe dir).vms,
        ∃ p : Int, info.pid = some p ∧ p ≠ 0 ∧
          is_process_running (probe p) = true) ∧
    (∀ e ∈ dir, ∀ info, e.parse = ParseOutcome.record info →
        liveRec probe info = false →
        info ∉ (get_running_vms probe dir).vms ∧
        e ∉ (get_running_vms probe dir).kept) := by
  obtain ⟨h1, h2, _⟩ := grv_characterization probe dir h
  constructor
  · intro info hin
    rw [h1] at hin
    obtain ⟨e, _, hof⟩ := List.mem_filterMap.mp hin
    exact liveRec_eq_true (liveOf_eq_some hof).2
  · intro e _ info hparse hl
    constructor
    · rw [h1]
      intro hin
      obtain ⟨e2, _, hof⟩ := List.mem_filterMap.mp hin
      have := (liveOf_eq_some hof).2
      rw [hl] at this
      cases this
    · rw [h2]
      intro hin
      have hk := (List.mem_filter.mp hin).2
      simp [keepEntry, hparse, hl] at hk

/-- A live record used by the concrete demonstration worlds. -/
def demoAlive : VMInfo := ⟨['a'], some 7, ['d'], ['t'], none⟩

/-- A record whose process is dead in the demonstration worlds. -/
def demoDead : VMInfo := ⟨['b'], some 8, ['d'], ['t'], none⟩

/-- A record with the falsy pid 0. -/
def demoZero : VMInfo := ⟨['z'], some 0, ['d'], ['t'], none⟩

/-- Demonstration probe: only pid 7 exists. -/
def demoProbe : Int → ProbeRes := fun p => if p = 7 then .ok else .esrch

/-- Demonstration run directory: one live record, one dead record, one
undecodable file. -/
def demoDir : List FileEntry :=
  [⟨['a'], .record demoAlive⟩, ⟨['b'], .record demoDead⟩, ⟨['c'], .badJson⟩]

/-- Witness for C1 on the demonstration directory: the dead record is
excluded from the result and its file is deleted. -/
theorem get_running_vms_c1_witness :
    demoDead ∉ (get_running_vms demoProbe demoDir).vms ∧
    (⟨['b'], .record demoDead⟩ : FileEntry) ∉
      (get_running_vms demoProbe demoDir).kept :=
  (get_running_vms_c1 demoProbe demoDir (by decide)).2
    ⟨['b'], .record demoDead⟩ (by decide) demoDead rfl (by decide)

/-- C10.  When `get_running_vms` returns: a successfully parsed record whose
pid field is absent or zero is not treated like a corrupt entry (which would
be kept on disk) but like a dead process: its file is deleted, it is excluded
from the result, and the liveness prober is never consulted for it — every
probed pid is nonzero and comes from a record that carries it explicitly. -/
theorem get_running_vms_c10 (probe : Int → ProbeRes) (dir : List FileEntry)
    (h : (get_running_vms probe dir).crashed = false) :
    (∀ e ∈ dir, ∀ info, e.parse = ParseOutcome.record info →
        (info.pid = none ∨ info.pid = some 0) →
        e ∉ (get_running_vms probe dir).kept ∧
        info ∉ (get_running_vms probe dir).vms) ∧
    (∀ p ∈ (get_running_vms probe dir).probed, p ≠ 0) ∧
    (∀ p ∈ (get_running_vms probe dir).probed,
        ∃ e ∈ dir, ∃ info, e.parse = ParseOutcome.record info ∧
          info.pid = some p) := by
  obtain ⟨h1, h2, h3⟩ := grv_characterization probe dir h
  refine ⟨?_, ?_, ?_⟩
  · intro e _ info hparse hpid
    have hl : liveRec probe info = false := by
      rcases hpid with hp | hp <;> simp [liveRec, hp]
    constructor
    · rw [h2]
      intro hin
      have hk := (List.mem_filter.mp hin).2
      simp [keepEntry, hparse, hl] at hk
    · rw [h1]
      intro hin
      obtain ⟨e2, _, hof⟩ := List.mem_filterMap.mp hin
      have := (liveOf_eq_some hof).2
      rw [hl] at this
      cases this
  · intro p hp
    rw [h3] at hp
    obtain ⟨e, _, hof⟩ := List.mem_filterMap.mp hp
    exact (probeOf_eq_some hof).1
  · intro p hp
    rw [h3] at hp
    obtain ⟨e, he, hof⟩ := List.mem_filterMap.mp hp
    obtain ⟨_, info, hparse, hpid⟩ := probeOf_eq_some hof
    exact ⟨e, he, info, hparse, hpid⟩

/-- Demonstration directory with a pid-0 record next to a live one. -/
def demoDirZero : List FileEntry :=
  [⟨['z'], .record demoZero⟩, ⟨['a'], .record demoAlive⟩]

/-- Witness for C10: the pid-0 record is deleted and excluded. -/
theorem get_running_vms_c10_witness :
    (⟨['z'], .record demoZero⟩ : FileEntry) ∉
      (get_running_vms demoProbe demoDirZero).kept ∧
    demoZero ∉ (get_running_vms demoProbe demoDirZero).vms :=
  (get_running_vms_c10 demoProbe demoDirZero (by decide)).1
    ⟨['z'], .record demoZero⟩ (by decide) demoZero rfl (Or.inr rfl)

/-- C9 (amended).  An entry that fails JSON decoding is silently skipped by
the enumeration: the returned records and the crash status are exactly those
of the directory without it, and its file stays on disk. -/
theorem get_running_vms_c9_amended (probe : Int → ProbeRes)
    (d1 d2 : List FileEntry) (e : FileEntry)
    (he : e.parse = ParseOutcome.badJson) :
    (get_running_vms probe (d1 ++ e :: d2)).vms =
      (get_running_vms probe (d1 ++ d2)).vms ∧
    (get_running_vms probe (d1 ++ e :: d2)).crashed =
      (get_running_vms probe (d1 ++ d2)).crashed ∧
    e ∈ (get_running_vms probe (d1 ++ e :: d2)).kept := by
  induction d1 with
  | nil => simp [get_running_vms, he]
  | cons a d1 ih =>
    obtain ⟨iv, ic, ik⟩ := ih
    rcases ha : a.parse with info | _ | _
    · rcases hp : info.pid with _ | p
      · simp [get_running_vms, ha, hp, iv, ic, ik]
      · by_cases hz : p = 0
        · subst hz
          simp [get_running_vms, ha, hp, iv, ic, ik]
        · by_cases halive : is_process_running (probe p) = true
          · simp [get_running_vms, ha, hp, hz, halive, iv, ic, ik]
          · simp [get_running_vms, ha, hp, hz, halive, iv, ic, ik]
    · simp [get_running_vms, ha, iv, ic, ik]
    · simp [get_running_vms, ha]

/-- A syntactically valid but non-object registry file. -/
def demoNonObj : FileEntry := ⟨['n'], .nonObj⟩

/-- Demonstration directory where a live record precedes a non-object file. -/
def demoDirNonObj : List FileEntry :=
  [⟨['a'], .record demoAlive⟩, demoNonObj]

/-- Counterexample to C9 as stated: a corrupt entry that is valid JSON but
not an object raises an uncaught error that aborts the whole enumeration,
even though a well-formed live record is present — one bad entry does hide
the other records. -/
theorem get_running_vms_c9_cex :
    (get_running_vms demoProbe demoDirNonObj).crashed = true ∧
    liveRec demoProbe demoAlive = true ∧
    (⟨['a'], .record demoAlive⟩ : FileEntry) ∈ demoDirNonObj := by
  decide

/-- Witness for the amended C9 on concrete directories. -/
theorem get_running_vms_c9_amended_witness :
    (get_running_vms demoProbe
        ([⟨['a'], .record demoAlive⟩] ++ ⟨['c'], .badJson⟩ ::
          [⟨['b'], .record demoDead⟩])).vms =
      (get_running_vms demoProbe
        ([⟨['a'], .record demoAlive⟩] ++ [⟨['b'], .record demoDead⟩])).vms ∧
    (get_running_vms demoProbe
        ([⟨['a'], .record demoAlive⟩] ++ ⟨['c'], .badJson⟩ ::
          [⟨['b'], .record demoDead⟩])).crashed =
      (get_running_vms demoProbe
        ([⟨['a'], .record demoAlive⟩] ++ [⟨['b'], .record demoDead⟩])).crashed ∧
    (⟨['c'], .badJson⟩ : FileEntry) ∈
      (get_running_vms demoProbe
        ([⟨['a'], .record demoAlive⟩] ++ ⟨['c'], .badJson⟩ ::
          [⟨['b'], .record demoDead⟩])).kept :=
  get_running_vms_c9_amended demoProbe [⟨['a'], .record demoAlive⟩]
    [⟨['b'], .record demoDead⟩] ⟨['c'], .badJson⟩ rfl

theorem pollLoop_all_alive (step : Nat → ProbeRes) :
    ∀ fuel i, (∀ j, i ≤ j → j < i + fuel → step j = ProbeRes.ok) →
      pollLoop step i fuel =
        ((List.replicate fuel [Ev.sleepHalf, Ev.poll true]).flatten, true) := by
  intro fuel
  induction fuel with
  | zero => intro i _; rfl
  | succ f ih =>
    intro i h
    have hi : step i = ProbeRes.ok := h i (le_refl i) (by omega)
    simp only [pollLoop, hi, is_process_running, if_true]
    rw [ih (i + 1) (fun j hj1 hj2 => h j (by omega) (by omega))]
    simp [List.replicate_succ]

theorem pollLoop_dies (step : Nat → ProbeRes) :
    ∀ fuel i k, i ≤ k → k < i + fuel →
      (∀ j, i ≤ j → j < k → step j = ProbeRes.ok) → step k ≠ ProbeRes.ok →
      pollLoop step i fuel =
        ((List.replicate (k - i) [Ev.sleepHalf, Ev.poll true]).flatten
          ++ [Ev.sleepHalf, Ev.poll false], false) := by
  intro fuel
  induction fuel with
  | zero => intro i k h1 h2 _ _; omega
  | succ f ih =>
    intro i k h1 h2 hpre hk
    by_cases hik : k = i
    · subst hik
      have hrun : is_process_running (step k) = false := by
        cases hx : step k with
        | ok => exact absurd hx hk
        | esrch => rfl
        | eperm => rfl
      simp [pollLoop, hrun]
    · have hi : step i = ProbeRes.ok := hpre i (le_refl i) (by omega)
      simp only [pollLoop, hi, is_process_running, if_true]
      rw [ih (i + 1) k (by omega) (by omega)
        (fun j hj1 hj2 => hpre j (by omega) hj2) hk]
      have hrep : k - i = (k - (i + 1)) + 1 := by omega
      rw [hrep]
      simp [List.replicate_succ]

theorem sigkill_not_mem_polls (m : Nat) :
    Ev.sigkill ∉ (List.replicate m [Ev.sleepHalf, Ev.poll true]).flatten := by
  intro h
  obtain ⟨l, hl, hmem⟩ := List.mem_flatten.mp h
  rw [List.eq_of_mem_replicate hl] at hmem
  simp at hmem

/-- C2.  For a graceful stop of a live, signalable pid: the first action is
the SIGTERM attempt; liveness is then polled after fixed half-unit sleeps
for at most 10 attempts; if some poll within the budget reports the process
gone, the loop stops there, the record is removed with return code 0 and no
SIGKILL is ever attempted; only when all 10 polls report the process alive
is a SIGKILL attempted, after the full budget.  With the force flag the
whole interaction is a single immediate SIGKILL with no SIGTERM, no sleep
and no poll. -/
theorem stop_vm_c2 (step : Nat → ProbeRes) (h0 : step 0 = ProbeRes.ok) :
    (stop_vm step false).events.head? = some Ev.sigterm ∧
    (∀ k, 1 ≤ k → k ≤ 10 → (∀ j, 1 ≤ j → j < k → step j = ProbeRes.ok) →
      step k ≠ ProbeRes.ok →
      stop_vm step false =
        ⟨Ev.sigterm :: ((List.replicate (k - 1) [Ev.sleepHalf, Ev.poll true]).flatten
            ++ [Ev.sleepHalf, Ev.poll false]), true, 0⟩ ∧
      Ev.sigkill ∉ (stop_vm step false).events) ∧
    ((∀ j, 1 ≤ j → j ≤ 10 → step j = ProbeRes.ok) →
      (stop_vm step false).events =
        Ev.sigterm :: (List.replicate 10 [Ev.sleepHalf, Ev.poll true]).flatten
          ++ [Ev.sigkill]) ∧
    (stop_vm step true).events = [Ev.sigkill] := by
  refine ⟨?_, ?_, ?_, ?_⟩
  · rcases hloop : pollLoop step 1 10 with ⟨evs, alive⟩
    cases alive with
    | true =>
      cases hx : step 11 <;> simp [stop_vm, h0, hloop, hx]
    | false => simp [stop_vm, h0, hloop]
  · intro k hk1 hk10 hpre hk
    have hl := pollLoop_dies step 10 1 k hk1 (by omega) hpre hk
    have hmain : stop_vm step false =
        ⟨Ev.sigterm :: ((List.replicate (k - 1) [Ev.sleepHalf, Ev.poll true]).flatten
            ++ [Ev.sleepHalf, Ev.poll false]), true, 0⟩ := by
      simp [stop_vm, h0, hl]
    refine ⟨hmain, ?_⟩
    rw [hmain]
    intro hmem
    simp only [List.mem_cons, List.mem_append] at hmem
    rcases hmem with h1 | h1 | h1
    · cases h1
    · exact sigkill_not_mem_polls (k - 1) h1
    · simp at h1
  · intro hall
    have hl := pollLoop_all_alive step 10 1 (fun j hj1 hj2 => hall j hj1 (by omega))
    cases hx : step 11 <;> simp [stop_vm, h0, hl, hx]
  · simp [stop_vm, h0]

/-- Step oracle for the C2 witness: the process is signalable and dies
before the third poll. -/
def demoStepDies : Nat → ProbeRes := fun k => if k < 3 then .ok else .esrch

/-- Witness for C2: with the concrete oracle `demoStepDies` the process dies
at poll 3, so the stop trace is SIGTERM, two alive polls, one dead poll, no
SIGKILL; and a forced stop is a bare SIGKILL. -/
theorem stop_vm_c2_witness :
    (stop_vm demoStepDies false).events.head? = some Ev.sigterm ∧
    (stop_vm demoStepDies false =
      ⟨Ev.sigterm :: ((List.replicate 2 [Ev.sleepHalf, Ev.poll true]).flatten
          ++ [Ev.sleepHalf, Ev.poll false]), true, 0⟩ ∧
      Ev.sigkill ∉ (stop_vm demoStepDies false).events) ∧
    (stop_vm demoStepDies true).events = [Ev.sigkill] := by
  have h := stop_vm_c2 demoStepDies (by decide)
  refine ⟨h.1, ?_, h.2.2.2⟩
  have h3 := h.2.1 3 (by decide) (by decide)
    (by intro j hj1 hj2; interval_cases j <;> decide) (by decide)
  exact h3

theorem stopAll_subset (sp : Int → Nat → ProbeRes) (force : Bool) :
    ∀ (vms : List VMInfo) (d : List FileEntry) (x : FileEntry),
      x ∈ stopAll sp force vms d → x ∈ d := by
  intro vms
  induction vms with
  | nil => intro d x hx; exact hx
  | cons vm rest ih =>
    intro d x hx
    simp only [stopAll] at hx
    have h2 := ih _ x hx
    split at h2
    · exact (List.mem_filter.mp h2).1
    · exact h2

theorem cmd_stop_dirAfter_subset (w : StopWorld) (args : CmdStopArgs) :
    ∀ x ∈ (cmd_stop w args).dirAfter, x ∈ (get_running_vms w.probe w.dir).kept := by
  simp only [cmd_stop]
  split
  · intro x hx; exact hx
  · split
    · split
      · intro x hx; exact hx
      · intro x hx; exact stopAll_subset _ _ _ _ x hx
    · split
      · intro x hx; exact hx
      · split
        · intro x hx; exact hx
        · split
          · intro x hx; exact hx
          · intro x hx
            split at hx
            · exact (List.mem_filter.mp hx).1
            · exact hx

/-- C3 (amended).  An empty target name is rejected by the name-required
usage check with return code 1 before any resolution.  A nonempty target
that matches no live record (by name, nor as a pid) reports the not-found
error with return code 1 and no signalling; the only not-currently-live
case that returns success is the race in which the resolved target's
process disappears between resolution and the kill signal (ESRCH), which
removes the record and returns 0. -/
theorem cmd_stop_c3_amended (w : StopWorld) (args : CmdStopArgs) (nm : Str)
    (hall : args.all = false) (hname : args.name = some nm)
    (hnc : (get_running_vms w.probe w.dir).crashed = false) :
    (nm = [] →
      cmd_stop w args = ⟨false, 1, (get_running_vms w.probe w.dir).kept⟩) ∧
    (nm ≠ [] →
      (get_running_vms w.probe w.dir).vms.find? (fun v => v.name == nm) = none →
      (∀ k, pyInt nm = some k →
        (get_running_vms w.probe w.dir).vms.find? (fun v => v.pid == some k) = none) →
      cmd_stop w args = ⟨false, 1, (get_running_vms w.probe w.dir).kept⟩) ∧
    (nm ≠ [] →
      ∀ vm, (get_running_vms w.probe w.dir).vms.find? (fun v => v.name == nm) = some vm →
      w.stepProbe (vm.pid.getD 0) 0 = ProbeRes.esrch →
      cmd_stop w args =
        ⟨false, 0, remove_vm_info vm.name (get_running_vms w.probe w.dir).kept⟩) := by
  refine ⟨?_, ?_, ?_⟩
  · intro hnm
    subst hnm
    simp [cmd_stop, hnc, hall, hname]
  · intro hnm hfind hpid
    rcases hpi : pyInt nm with _ | k
    · simp [cmd_stop, hnc, hall, hname, hnm, hfind, hpi]
    · simp [cmd_stop, hnc, hall, hname, hnm, hfind, hpi, hpid k hpi]
  · intro hnm vm hfind hstep
    have hsv : stop_vm (w.stepProbe (vm.pid.getD 0)) args.force =
        ⟨if args.force then [Ev.sigkill] else [Ev.sigterm], true, 0⟩ := by
      cases hf : args.force <;> simp [stop_vm, hstep]
    simp [cmd_stop, hnc, hall, hname, hnm, hfind, hsv]

/-- Stop world with an empty registry. -/
def demoStopWorldEmpty : StopWorld := ⟨[], fun _ => .esrch, fun _ _ => .esrch⟩

/-- Stop arguments naming the never-existing target x. -/
def demoStopArgsX : CmdStopArgs := ⟨some ['x'], false, false⟩

/-- Counterexample to C3 as stated: stopping a name for which no record ever
existed returns the not-found error with exit status 1, not success 0. -/
theorem cmd_stop_c3_cex :
    ¬ (cmd_stop demoStopWorldEmpty demoStopArgsX).ret = 0 ∧
    (cmd_stop demoStopWorldEmpty demoStopArgsX).ret = 1 := by
  decide

/-- Stop world where record a (pid 7) is alive at enumeration but its
process exits before the kill signal is delivered. -/
def demoStopWorldRace : StopWorld :=
  ⟨[⟨['a'], .record demoAlive⟩], demoProbe, fun _ _ => .esrch⟩

/-- Stop arguments naming the target a. -/
def demoStopArgsA : CmdStopArgs := ⟨some ['a'], false, false⟩

/-- Stop arguments with an empty target name. -/
def demoStopArgsEmptyName : CmdStopArgs := ⟨some [], false, false⟩

/-- Witness for the amended C3: an empty target name returns 1 before any
resolution, the not-found case returns 1 on a concrete empty registry, and
the resolution race returns 0 and removes the record. -/
theorem cmd_stop_c3_amended_witness :
    cmd_stop demoStopWorldRace demoStopArgsEmptyName =
      ⟨false, 1, (get_running_vms demoStopWorldRace.probe demoStopWorldRace.dir).kept⟩ ∧
    cmd_stop demoStopWorldEmpty demoStopArgsX =
      ⟨false, 1, (get_running_vms demoStopWorldEmpty.probe demoStopWorldEmpty.dir).kept⟩ ∧
    cmd_stop demoStopWorldRace demoStopArgsA =
      ⟨false, 0, remove_vm_info demoAlive.name
        (get_running_vms demoStopWorldRace.probe demoStopWorldRace.dir).kept⟩ := by
  refine ⟨?_, ?_, ?_⟩
  · exact (cmd_stop_c3_amended demoStopWorldRace demoStopArgsEmptyName [] rfl rfl
      (by decide)).1 rfl
  · refine (cmd_stop_c3_amended demoStopWorldEmpty demoStopArgsX ['x'] rfl rfl
      (by decide)).2.1 (by decide) (by decide) ?_
    intro k hk
    rw [show pyInt (['x'] : Str) = none from by decide] at hk
    cases hk
  · exact (cmd_stop_c3_amended demoStopWorldRace demoStopArgsA ['a'] rfl rfl
      (by decide)).2.2 (by decide) demoAlive (by decide) (by decide)

/-- C6 (amended).  A permission denial on the kill syscall itself makes
`stop_vm` report the error (return 1) without touching the record; but when
the permission failure already shows at the enumeration-time liveness probe,
the probe reads as "not running", so the enumeration deletes the record as
dead and the stop command does mutate state despite failing. -/
theorem cmd_stop_c6_amended :
    (∀ (step : Nat → ProbeRes) (force : Bool), step 0 = ProbeRes.eperm →
      (stop_vm step force).ret = 1 ∧ (stop_vm step force).removed = false) ∧
    (∀ (w : StopWorld) (args : CmdStopArgs) (e : FileEntry) (info : VMInfo) (p : Int),
      (get_running_vms w.probe w.dir).crashed = false →
      e ∈ w.dir → e.parse = ParseOutcome.record info → info.pid = some p →
      w.probe p = ProbeRes.eperm →
      e ∉ (cmd_stop w args).dirAfter) := by
  constructor
  · intro step force hstep
    cases force <;> simp [stop_vm, hstep]
  · intro w args e info p hnc hmem hparse hpid hperm
    intro hx
    have hkept := cmd_stop_dirAfter_subset w args e hx
    obtain ⟨_, h2, _⟩ := grv_characterization w.probe w.dir hnc
    rw [h2] at hkept
    have hk := (List.mem_filter.mp hkept).2
    have hl : liveRec w.probe info = false := by
      by_cases hz : p = 0 <;>
        simp [liveRec, hpid, hz, hperm, is_process_running]
    simp [keepEntry, hparse, hl] at hk

/-- Stop world where the caller lacks permission to signal the recorded
process (pid 7): the probe answers EPERM everywhere. -/
def demoStopWorldEperm : StopWorld :=
  ⟨[⟨['a'], .record demoAlive⟩], fun _ => .eperm, fun _ _ => .eperm⟩

/-- Counterexample to C6 as stated: with the caller lacking permission to
signal pid 7, the stop command exits 1 but the registry record is deleted
rather than left intact (the permission failure at the liveness probe is
read as process death). -/
theorem cmd_stop_c6_cex :
    (cmd_stop demoStopWorldEperm demoStopArgsA).ret = 1 ∧
    (cmd_stop demoStopWorldEperm demoStopArgsA).dirAfter = [] ∧
    ¬ demoStopWorldEperm.dir = [] := by
  decide

/-- Per-step oracle answering EPERM everywhere. -/
def demoStepEperm : Nat → ProbeRes := fun _ => .eperm

/-- Witness for the amended C6: a concrete EPERM kill keeps the record and
returns 1, while a concrete EPERM-at-enumeration stop deletes the record. -/
theorem cmd_stop_c6_amended_witness :
    ((stop_vm demoStepEperm false).ret = 1 ∧
      (stop_vm demoStepEperm false).removed = false) ∧
    (⟨['a'], .record demoAlive⟩ : FileEntry) ∉
      (cmd_stop demoStopWorldEperm demoStopArgsA).dirAfter :=
  ⟨cmd_stop_c6_amended.1 demoStepEperm false rfl,
    cmd_stop_c6_amended.2 demoStopWorldEperm demoStopArgsA
      ⟨['a'], .record demoAlive⟩ demoAlive 7 (by decide) (by decide) rfl rfl rfl⟩

/-- C4.  When the start-time enumeration returns: if some live record
carries the requested name, the start is rejected with return code 1 and
has no effects at all — nothing spawned, no record, no config file, no log,
directory exactly as the enumeration left it; if no live record carries the
name (for instance because the earlier same-named process died and its
record was reclaimed by this very enumeration) and the disk image, memory
spec and helper binary preconditions hold, the start succeeds with return
code 0, spawns, and registers a record under that name (written durably
into the directory in background mode). -/
theorem cmd_start_c4 (cfg : Config) (args : StartArgs) (w : StartWorld)
    (hnc : (get_running_vms w.probe w.dir).crashed = false) :
    ((∃ v ∈ (get_running_vms w.probe w.dir).vms, v.name = resolveName args w) →
      cmd_start cfg args w =
        ⟨false, 1, false, false, false, none, (get_running_vms w.probe w.dir).kept⟩) ∧
    ((∀ v ∈ (get_running_vms w.probe w.dir).vms, v.name ≠ resolveName args w) →
      w.fsExists (resolveDisk args cfg) = true →
      (∃ mb, parse_memory (resolveMemory args cfg) = some mb) →
      w.fsExists (resolveBinary args cfg) = true →
      (cmd_start cfg args w).ret = 0 ∧
      (cmd_start cfg args w).spawned = true ∧
      (∃ info, (cmd_start cfg args w).recordWritten = some info ∧
        info.name = resolveName args w ∧
        (args.foreground = false →
          (⟨resolveName args w, ParseOutcome.record info⟩ : FileEntry) ∈
            (cmd_start cfg args w).dirAfter))) := by
  constructor
  · rintro ⟨v, hv, hname⟩
    have hany : (get_running_vms w.probe w.dir).vms.any
        (fun v => v.name == resolveName args w) = true := by
      rw [List.any_eq_true]
      exact ⟨v, hv, by simp [hname]⟩
    simp [cmd_start, hnc, hany]
  · intro hno hdisk hmbE hbin
    obtain ⟨mb, hmb⟩ := hmbE
    have hany : (get_running_vms w.probe w.dir).vms.any
        (fun v => v.name == resolveName args w) = false := by
      rw [List.any_eq_false]
      intro x hx
      simpa using hno x hx
    cases hf : args.foreground
    · refine ⟨by simp [cmd_start, hnc, hany, hdisk, hmb, hbin, hf],
        by simp [cmd_start, hnc, hany, hdisk, hmb, hbin, hf],
        ⟨resolveName args w, some w.spawnPid, resolveDisk args cfg, w.nowIso,
          some ⟨resolveCpu args cfg, resolveMemory args cfg, mb,
            w.abspath (resolveDisk args cfg),
            if w.fsExists (resolveSeed args cfg) = true then
              some (w.abspath (resolveSeed args cfg)) else none⟩⟩,
        ?_, rfl, ?_⟩
      · simp [cmd_start, hnc, hany, hdisk, hmb, hbin, hf]
      · intro _
        simp [cmd_start, hnc, hany, hdisk, hmb, hbin, hf, save_vm_info]
    · refine ⟨by simp [cmd_start, hnc, hany, hdisk, hmb, hbin, hf],
        by simp [cmd_start, hnc, hany, hdisk, hmb, hbin, hf],
        ⟨resolveName args w, some w.spawnPid, resolveDisk args cfg, w.nowIso,
          some ⟨resolveCpu args cfg, resolveMemory args cfg, mb,
            w.abspath (resolveDisk args cfg),
            if w.fsExists (resolveSeed args cfg) = true then
              some (w.abspath (resolveSeed args cfg)) else none⟩⟩,
        ?_, rfl, ?_⟩
      · simp [cmd_start, hnc, hany, hdisk, hmb, hbin, hf]
      · intro hcontra
        exact absurd hcontra (by decide)

/-- C5 (amended).  A start rejected for a live name clash or a missing disk
image fails with return code 1 and no side effects at all: no spawn, no
registry record, no log file, and no config file.  A start rejected for a
missing helper binary also fails with return code 1, spawns nothing and
writes neither record nor log, but the per-name temporary launch-config
file has already been written before the binary check and is left behind. -/
theorem cmd_start_c5_amended (cfg : Config) (args : StartArgs) (w : StartWorld)
    (hnc : (get_running_vms w.probe w.dir).crashed = false) :
    ((∃ v ∈ (get_running_vms w.probe w.dir).vms, v.name = resolveName args w) →
      cmd_start cfg args w =
        ⟨false, 1, false, false, false, none, (get_running_vms w.probe w.dir).kept⟩) ∧
    ((∀ v ∈ (get_running_vms w.probe w.dir).vms, v.name ≠ resolveName args w) →
      w.fsExists (resolveDisk args cfg) = false →
      cmd_start cfg args w =
        ⟨false, 1, false, false, false, none, (get_running_vms w.probe w.dir).kept⟩) ∧
    ((∀ v ∈ (get_running_vms w.probe w.dir).vms, v.name ≠ resolveName args w) →
      w.fsExists (resolveDisk args cfg) = true →
      (∃ mb, parse_memory (resolveMemory args cfg) = some mb) →
      w.fsExists (resolveBinary args cfg) = false →
      cmd_start cfg args w =
        ⟨false, 1, false, true, false, none, (get_running_vms w.probe w.dir).kept⟩) := by
  have hanyF : (∀ v ∈ (get_running_vms w.probe w.dir).vms,
      v.name ≠ resolveName args w) →
      (get_running_vms w.probe w.dir).vms.any
        (fun v => v.name == resolveName args w) = false := by
    intro hno
    rw [List.any_eq_false]
    intro x hx
    simpa using hno x hx
  refine ⟨?_, ?_, ?_⟩
  · rintro ⟨v, hv, hname⟩
    have hany : (get_running_vms w.probe w.dir).vms.any
        (fun v => v.name == resolveName args w) = true := by
      rw [List.any_eq_true]
      exact ⟨v, hv, by simp [hname]⟩
    simp [cmd_start, hnc, hany]
  · intro hno hdisk
    simp [cmd_start, hnc, hanyF hno, hdisk]
  · intro hno hdisk hmbE hbin
    obtain ⟨mb, hmb⟩ := hmbE
    simp [cmd_start, hnc, hanyF hno, hdisk, hmb, hbin]

/-- Concrete configuration: cpu 2, memory "2G", disk u, binary v, seed s. -/
def demoCfg : Config := ⟨2, ['2', 'G'], ['u'], ['v'], ['s']⟩

/-- Concrete start arguments requesting the name a in background mode. -/
def demoStartArgs : StartArgs := ⟨some ['a'], none, none, none, none, none, false⟩

/-- Start world in which a live record already carries the name a. -/
def demoStartWorldConflict : StartWorld :=
  ⟨[⟨['a'], .record demoAlive⟩], demoProbe, fun _ => true, fun s => s, 5, ['t'], 99⟩

/-- A dead record (pid 8) carrying the name a. -/
def demoDeadA : VMInfo := ⟨['a'], some 8, ['d'], ['t'], none⟩

/-- Start world in which the only record named a belongs to a dead process,
so the enumeration reclaims it. -/
def demoStartWorldFree : StartWorld :=
  ⟨[⟨['a'], .record demoDeadA⟩], demoProbe, fun _ => true, fun s => s, 5, ['t'], 99⟩

/-- Start world with an empty registry and no file present at all. -/
def demoStartWorldNoDisk : StartWorld :=
  ⟨[], demoProbe, fun _ => false, fun s => s, 5, ['t'], 99⟩

/-- Start world where the disk u exists but the helper binary v does not. -/
def demoStartWorldNoBin : StartWorld :=
  ⟨[], demoProbe, fun s => s == ['u'], fun s => s, 5, ['t'], 99⟩

/-- Witness for C4: starting a held name is rejected without effects, and
starting the same name once its dead record was reclaimed succeeds and
registers the record. -/
theorem cmd_start_c4_witness :
    cmd_start demoCfg demoStartArgs demoStartWorldConflict =
      ⟨false, 1, false, false, false, none,
        (get_running_vms demoStartWorldConflict.probe demoStartWorldConflict.dir).kept⟩ ∧
    ((cmd_start demoCfg demoStartArgs demoStartWorldFree).ret = 0 ∧
      (cmd_start demoCfg demoStartArgs demoStartWorldFree).spawned = true ∧
      (∃ info, (cmd_start demoCfg demoStartArgs demoStartWorldFree).recordWritten =
          some info ∧
        info.name = resolveName demoStartArgs demoStartWorldFree ∧
        (demoStartArgs.foreground = false →
          (⟨resolveName demoStartArgs demoStartWorldFree,
              ParseOutcome.record info⟩ : FileEntry) ∈
            (cmd_start demoCfg demoStartArgs demoStartWorldFree).dirAfter))) :=
  ⟨(cmd_start_c4 demoCfg demoStartArgs demoStartWorldConflict (by decide)).1
      ⟨demoAlive, by decide, by decide⟩,
    (cmd_start_c4 demoCfg demoStartArgs demoStartWorldFree (by decide)).2
      (by decide) (by decide) ⟨2147483648, by decide⟩ (by decide)⟩

/-- Counterexample to C5 as stated: when the helper binary is missing the
start fails with return code 1, yet a persistent artifact — the per-name
launch-config file — has already been created by then. -/
theorem cmd_start_c5_cex :
    (cmd_start demoCfg demoStartArgs demoStartWorldNoBin).ret = 1 ∧
    (cmd_start demoCfg demoStartArgs demoStartWorldNoBin).spawned = false ∧
    (cmd_start demoCfg demoStartArgs demoStartWorldNoBin).configFileWritten = true := by
  decide

/-- Witness for the amended C5 at three concrete worlds: name clash and
missing disk leave nothing behind; the missing binary leaves exactly the
config file behind. -/
theorem cmd_start_c5_amended_witness :
    cmd_start demoCfg demoStartArgs demoStartWorldConflict =
      ⟨false, 1, false, false, false, none,
        (get_running_vms demoStartWorldConflict.probe demoStartWorldConflict.dir).kept⟩ ∧
    cmd_start demoCfg demoStartArgs demoStartWorldNoDisk =
      ⟨false, 1, false, false, false, none,
        (get_running_vms demoStartWorldNoDisk.probe demoStartWorldNoDisk.dir).kept⟩ ∧
    cmd_start demoCfg demoStartArgs demoStartWorldNoBin =
      ⟨false, 1, false, true, false, none,
        (get_running_vms demoStartWorldNoBin.probe demoStartWorldNoBin.dir).kept⟩ :=
  ⟨(cmd_start_c5_amended demoCfg demoStartArgs demoStartWorldConflict (by decide)).1
      ⟨demoAlive, by decide, by decide⟩,
    (cmd_start_c5_amended demoCfg demoStartArgs demoStartWorldNoDisk (by decide)).2.1
      (by decide) (by decide),
    (cmd_start_c5_amended demoCfg demoStartArgs demoStartWorldNoBin (by decide)).2.2
      (by decide) (by decide) ⟨2147483648, by decide⟩ (by decide)⟩

end Vmctl
